import Mathlib

/-!
Verification of the transaction batch ingestion and processing-state tracker
of the Second Brain Plaid proxy (src/backend/main.py).

The SQLite-backed store is embedded shallowly: the two tables
`transaction_batches` and `transactions` become two Lean lists of rows kept
in insertion order, and each endpoint handler becomes a pure function from a
store (plus its request parameters) to a new store and a response.  Values
that the Python code obtains from its environment during a call — the
generated batch id and the `datetime.now().isoformat()` timestamp — are
passed in as explicit parameters.  HTTP error responses produced through
`HTTPException` become an `Except` error value carrying the status code and
detail string.
-/

/-- A row of the `transaction_batches` table (src/backend/main.py,
`init_database`).  Counts are SQLite INTEGERs holding non-negative counts,
embedded as `Nat`; `error_message` is a nullable column. -/
structure BatchRow where
  id : String
  status : String
  created_at : String
  total_transactions : Nat
  processed_transactions : Nat
  start_date : String
  end_date : String
  error_message : Option String
deriving Repr, DecidableEq

/-- A row of the `transactions` table (src/backend/main.py,
`init_database`).  `transaction_data` holds the JSON-serialized provider
payload as an opaque string. -/
structure TxRow where
  id : String
  batch_id : String
  transaction_data : String
  processed : Bool
  created_at : String
deriving Repr, DecidableEq

/-- The persistent store: the two tables, rows in insertion order. -/
structure Store where
  batches : List BatchRow
  transactions : List TxRow
deriving Repr, DecidableEq

/-- One raw record of the upstream fetch result, as seen by the ingestion
loop of `create_transaction_batch`: either the conversion of the record to a
dictionary raises (`convFail`, the `except Exception ... continue` branch),
or it yields a dictionary whose `transaction_id` entry is the given string —
the empty string standing for a missing or empty id (`if not
transaction_id: continue`) — together with its serialized payload. -/
inductive RawRecord where
  | convFail : RawRecord
  | ok (transaction_id : String) (payload : String) : RawRecord
deriving Repr, DecidableEq

/-- Embedding of `SELECT id FROM transactions WHERE id = ?` followed by `fetchone()`:
does a transaction row with this id exist? -/
def txIdExists (txs : List TxRow) (tid : String) : Bool :=
  txs.any (fun t => t.id == tid)

/-- Embedding of `SELECT ... FROM transaction_batches WHERE id = ?`: does a batch row
with this id exist? -/
def batchIdExists (bs : List BatchRow) (bid : String) : Bool :=
  bs.any (fun b => b.id == bid)

/-- Result of the per-record ingestion loop of `create_transaction_batch`:
the `transactions` table after the loop, and the `new_transactions` /
`duplicate_transactions` counters. -/
structure IngestResult where
  txs : List TxRow
  newCount : Nat
  dupCount : Nat
deriving Repr, DecidableEq

/-- Embedding of the `for transaction in transactions:` loop of
`create_transaction_batch` (src/backend/main.py lines 904-958): a record
whose conversion fails or whose `transaction_id` is missing/empty is
skipped; a record whose id already exists in the `transactions` table is
counted as a duplicate and skipped; otherwise a new row is inserted with
the new batch id, the default `processed = FALSE`, and the call timestamp. -/
def ingestRecords (batchId now : String) : List RawRecord → List TxRow → IngestResult
  | [], txs => ⟨txs, 0, 0⟩
  | RawRecord.convFail :: rest, txs => ingestRecords batchId now rest txs
  | RawRecord.ok tid payload :: rest, txs =>
    if tid = "" then ingestRecords batchId now rest txs
    else if txIdExists txs tid then
      let r := ingestRecords batchId now rest txs
      ⟨r.txs, r.newCount, r.dupCount + 1⟩
    else
      let r := ingestRecords batchId now rest
        (txs ++ [⟨tid, batchId, payload, false, now⟩])
      ⟨r.txs, r.newCount + 1, r.dupCount⟩

/-- An HTTP error response raised via `HTTPException`. -/
structure HErr where
  status_code : Nat
  detail : String
deriving Repr, DecidableEq

/-- String form (`str()`) of a FastAPI `HTTPException`: "status_code: detail". -/
def herrStr (e : HErr) : String :=
  toString e.status_code ++ ": " ++ e.detail

/-- Body of the `TransactionBatchResponse` model returned by
`create_transaction_batch`. -/
structure TransactionBatchResponse where
  batch_id : String
  status : String
  total_transactions : Nat
  message : String
deriving Repr, DecidableEq

/-- The success message built by `create_transaction_batch`. -/
def createBatchMessage (n d : Nat) : String :=
  "Batch created successfully with " ++ toString n ++ " new transactions (" ++
    toString d ++ " duplicates skipped)"

/-- Embedding of `create_transaction_batch` (src/backend/main.py lines 816-981), from the
point where the upstream fetch has already returned `records`.  The batch
row is inserted first (initially with the raw fetch count), the records are
ingested with deduplication, and the batch's `total_transactions` is then
updated to the novel count; all of it is committed at once, so the committed
batch row carries the novel count.  If the generated batch id already exists
the `INSERT` violates the PRIMARY KEY, the blanket `except` turns this into
an HTTP 500, and nothing is committed. -/
def create_transaction_batch (s : Store) (batchId now startDate endDate : String)
    (records : List RawRecord) : Store × Except HErr TransactionBatchResponse :=
  if batchIdExists s.batches batchId then
    (s, Except.error ⟨500,
      "Failed to create transaction batch: UNIQUE constraint failed: transaction_batches.id"⟩)
  else
    let r := ingestRecords batchId now records s.transactions
    let batch : BatchRow :=
      { id := batchId, status := "pending", created_at := now,
        total_transactions := r.newCount, processed_transactions := 0,
        start_date := startDate, end_date := endDate, error_message := none }
    ({ batches := s.batches ++ [batch], transactions := r.txs },
     Except.ok
       { batch_id := batchId, status := "pending", total_transactions := r.newCount,
         message := createBatchMessage r.newCount r.dupCount })

/-- Body of the response of `mark_transactions_processed`. -/
structure MarkResponse where
  batch_id : String
  marked_processed : Nat
  message : String
deriving Repr, DecidableEq

/-- The message built by `mark_transactions_processed`. -/
def markMessage (n : Nat) : String :=
  "Marked " ++ toString n ++ " transactions as processed"

/-- One iteration of the marking loop: `UPDATE transactions SET processed =
TRUE WHERE batch_id = ? AND id = ?`. -/
def markOne (bid tid : String) (txs : List TxRow) : List TxRow :=
  txs.map (fun t =>
    if t.batch_id == bid && t.id == tid then { t with processed := true } else t)

/-- Embedding of the `for transaction_id in transaction_ids:` loop of
`mark_transactions_processed`. -/
def markAll (bid : String) (tids : List String) (txs : List TxRow) : List TxRow :=
  tids.foldl (fun acc tid => markOne bid tid acc) txs

/-- Embedding of `SELECT COUNT(*) FROM transactions WHERE batch_id = ? AND processed =
TRUE`. -/
def countProcessed (bid : String) (txs : List TxRow) : Nat :=
  (txs.filter (fun t => t.batch_id == bid && t.processed)).length

/-- Row effect of `UPDATE transaction_batches SET processed_transactions = ?
WHERE id = ?`. -/
def updateProcessedCount (bid : String) (c : Nat) (b : BatchRow) : BatchRow :=
  if b.id == bid then { b with processed_transactions := c } else b

/-- Row effect of `UPDATE transaction_batches SET status = 'completed'
WHERE id = ?`. -/
def setCompleted (bid : String) (b : BatchRow) : BatchRow :=
  if b.id == bid then { b with status := "completed" } else b

/-- Embedding of `mark_transactions_processed` (src/backend/main.py lines 1065-1116):
marks the listed ids inside the batch, recomputes the batch's
`processed_transactions` as an exact count, and sets `status = 'completed'`
when the selected row has `total_transactions == processed_transactions`
(note: with no positivity check on the total, and with no 404 path for an
unknown batch id — the UPDATEs simply match no rows and the handler returns
success with `marked_processed = len(transaction_ids)`). -/
def mark_transactions_processed (s : Store) (batchId : String) (tids : List String) :
    Store × Except HErr MarkResponse :=
  let txs := markAll batchId tids s.transactions
  let cnt := countProcessed batchId txs
  let bs := s.batches.map (updateProcessedCount batchId cnt)
  let bs2 :=
    match bs.find? (fun b => b.id == batchId) with
    | some row =>
      if row.total_transactions == row.processed_transactions then
        bs.map (setCompleted batchId)
      else bs
    | none => bs
  ({ batches := bs2, transactions := txs },
   Except.ok
     { batch_id := batchId, marked_processed := tids.length,
       message := markMessage tids.length })

/-- Body of the `BatchStatusResponse` model of `get_batch_status`.  Note
that the handler returns only these six columns of the batch row;
`start_date` and `end_date` are not part of the status response. -/
structure BatchStatusResponse where
  batch_id : String
  status : String
  total_transactions : Nat
  processed_transactions : Nat
  created_at : String
  error_message : Option String
deriving Repr, DecidableEq

/-- The body of the `try:` block of `get_batch_status` (src/backend/main.py
lines 983-1009): look the batch up by primary key; raise
`HTTPException(404, ...)` if absent, else return the row's columns. -/
def get_batch_status_inner (s : Store) (batchId : String) :
    Except HErr BatchStatusResponse :=
  match s.batches.find? (fun b => b.id == batchId) with
  | none => Except.error ⟨404, "Batch " ++ batchId ++ " not found"⟩
  | some b =>
    Except.ok ⟨b.id, b.status, b.total_transactions, b.processed_transactions,
      b.created_at, b.error_message⟩

/-- Embedding of `get_batch_status` as seen by the caller: the handler's own blanket
`except Exception as e:` catches the `HTTPException(404, ...)` raised inside
the `try:` block and re-raises it as
`HTTPException(500, f"Failed to get batch status: {e}")`, so an unknown
batch id reaches the caller as HTTP 500, not 404. -/
def get_batch_status (s : Store) (batchId : String) :
    Except HErr BatchStatusResponse :=
  match get_batch_status_inner s batchId with
  | Except.ok r => Except.ok r
  | Except.error e =>
    Except.error ⟨500, "Failed to get batch status: " ++ herrStr e⟩

/-- One element of the `transactions` array returned by
`get_batch_transactions`. -/
structure TxItem where
  id : String
  data : String
  processed : Bool
  created_at : String
deriving Repr, DecidableEq

/-- The response of `get_batch_transactions`. -/
structure TxPage where
  batch_id : String
  transactions : List TxItem
  limit : Nat
  offset : Nat
  count : Nat
deriving Repr, DecidableEq

/-- The WHERE clause of `get_batch_transactions`: `batch_id = ?`, plus
`AND processed = ?` when the optional filter is given. -/
def txMatches (batchId : String) (pf : Option Bool) (t : TxRow) : Bool :=
  t.batch_id == batchId &&
    (match pf with
     | none => true
     | some p => t.processed == p)

/-- Comparison used to embed `ORDER BY created_at` (ascending). -/
def createdAsc (a b : TxRow) : Bool :=
  decide (a.created_at ≤ b.created_at)

/-- Embedding of `get_batch_transactions` (src/backend/main.py lines 1015-1059): filter
the batch's rows (optionally by `processed`), `ORDER BY created_at`
(embedded as a stable merge sort on the insertion-ordered table), and apply
the SQL `LIMIT ? OFFSET ?` window. -/
def get_batch_transactions (s : Store) (batchId : String) (limit offset : Nat)
    (pf : Option Bool) : TxPage :=
  let rows :=
    (((s.transactions.filter (txMatches batchId pf)).mergeSort createdAsc).drop
      offset).take limit
  let items := rows.map (fun t =>
    TxItem.mk t.id t.transaction_data t.processed t.created_at)
  ⟨batchId, items, limit, offset, items.length⟩

/-- One element of the `batches` array returned by
`list_transaction_batches`; `progress_percentage` is the Python float
`row[3] / row[2] * 100`, embedded as an exact rational. -/
structure BatchSummary where
  batch_id : String
  status : String
  total_transactions : Nat
  processed_transactions : Nat
  created_at : String
  start_date : String
  end_date : String
  progress_percentage : ℚ
deriving Repr, DecidableEq

/-- The response of `list_transaction_batches`. -/
structure BatchesPage where
  batches : List BatchSummary
  count : Nat
deriving Repr, DecidableEq

/-- Comparison used to embed `ORDER BY created_at DESC`. -/
def createdDesc (a b : BatchRow) : Bool :=
  decide (b.created_at ≤ a.created_at)

/-- The WHERE clause of `list_transaction_batches`: the guard is Python's
`if status:`, which is false both for `None` and for the empty string, so an
empty-string filter leaves the batch list unfiltered. -/
def filterBatches (bs : List BatchRow) (status : Option String) : List BatchRow :=
  match status with
  | some st => if st = "" then bs else bs.filter (fun b => b.status == st)
  | none => bs

/-- The derived progress percentage of `list_transaction_batches`:
`(row[3] / row[2] * 100) if row[2] > 0 else 0`. -/
def progressPercentage (b : BatchRow) : ℚ :=
  if 0 < b.total_transactions then
    (b.processed_transactions : ℚ) / (b.total_transactions : ℚ) * 100
  else 0

/-- One summary row of `list_transaction_batches`. -/
def mkBatchSummary (b : BatchRow) : BatchSummary :=
  BatchSummary.mk b.id b.status b.total_transactions b.processed_transactions
    b.created_at b.start_date b.end_date (progressPercentage b)

/-- Embedding of `list_transaction_batches` (src/backend/main.py lines 1118-1160):
filter by status when a non-empty filter is given, `ORDER BY created_at
DESC`, `LIMIT ?`, and derive each summary's progress percentage. -/
def list_transaction_batches (s : Store) (status : Option String) (limit : Nat) :
    BatchesPage :=
  let rows := ((filterBatches s.batches status).mergeSort createdDesc).take limit
  let summaries := rows.map mkBatchSummary
  ⟨summaries, summaries.length⟩

/-- The states of the store reachable from the empty database through the
two mutating endpoints.  The read-only endpoints do not change the store. -/
inductive Reachable : Store → Prop
  | empty : Reachable ⟨[], []⟩
  | create (s : Store) (batchId now startDate endDate : String)
      (records : List RawRecord) : Reachable s →
      Reachable (create_transaction_batch s batchId now startDate endDate records).1
  | mark (s : Store) (batchId : String) (tids : List String) : Reachable s →
      Reachable (mark_transactions_processed s batchId tids).1

/-! ### Helper lemmas about the marking loop -/

/-- Pointwise effect of the whole marking loop on one row: the row's
`processed` flag is set when its batch and id match. -/
def markFun (bid : String) (tids : List String) (t : TxRow) : TxRow :=
  if t.batch_id == bid && tids.contains t.id then { t with processed := true } else t

lemma markFun_nil (bid : String) (t : TxRow) : markFun bid [] t = t := by
  simp [markFun]

lemma markFun_id_eq (bid : String) (tids : List String) (t : TxRow) :
    (markFun bid tids t).id = t.id := by
  simp only [markFun]; split <;> rfl

lemma markFun_batch_id_eq (bid : String) (tids : List String) (t : TxRow) :
    (markFun bid tids t).batch_id = t.batch_id := by
  simp only [markFun]; split <;> rfl

lemma markFun_processed_true (bid : String) (tids : List String) (t : TxRow)
    (h : t.processed = true) : (markFun bid tids t).processed = true := by
  simp only [markFun]; split <;> simp [h]

lemma markFun_eq_self (bid : String) (tids : List String) (t : TxRow)
    (h : t.batch_id ≠ bid) : markFun bid tids t = t := by
  have hb : (t.batch_id == bid) = false := by simpa using h
  simp [markFun, hb]

lemma markAll_cons (bid tid : String) (tids : List String) (txs : List TxRow) :
    markAll bid (tid :: tids) txs = markAll bid tids (markOne bid tid txs) := rfl

lemma markFun_cons (bid tid : String) (tids : List String) (t : TxRow) :
    markFun bid tids
      (if t.batch_id == bid && t.id == tid then { t with processed := true } else t) =
    markFun bid (tid :: tids) t := by
  rcases t with ⟨i, b, d, p, c⟩
  simp only [markFun, List.contains_cons]
  by_cases hb : (b == bid) = true <;> by_cases hi : (i == tid) = true <;>
    simp [hb, hi]

lemma markAll_eq_map (bid : String) (tids : List String) (txs : List TxRow) :
    markAll bid tids txs = txs.map (markFun bid tids) := by
  induction tids generalizing txs with
  | nil =>
    have h1 : txs.map (markFun bid []) = txs.map id :=
      List.map_congr_left fun t _ => markFun_nil bid t
    simp [markAll, h1]
  | cons tid rest ih =>
    rw [markAll_cons, ih, markOne, List.map_map]
    exact List.map_congr_left fun t _ => markFun_cons bid tid rest t

/-! ### Generic counting lemmas -/

lemma length_filter_map_congr {α : Type} (F : α → α) (p q : α → Bool)
    (h : ∀ t, p (F t) = q t) (l : List α) :
    ((l.map F).filter p).length = (l.filter q).length := by
  induction l with
  | nil => rfl
  | cons a l ih =>
    simp only [List.map_cons, List.filter_cons, h a]
    cases q a <;> simp [ih]

lemma length_filter_le_length_filter_map {α : Type} (F : α → α) (p q : α → Bool)
    (h : ∀ t, p t = true → q (F t) = true) (l : List α) :
    (l.filter p).length ≤ ((l.map F).filter q).length := by
  induction l with
  | nil => exact Nat.le_refl 0
  | cons a l ih =>
    simp only [List.map_cons, List.filter_cons]
    by_cases hp : p a = true
    · rw [if_pos hp, if_pos (h a hp)]
      simpa using ih
    · rw [if_neg hp]
      cases hq : q (F a) <;> simp [ih, Nat.le_succ_of_le]
  
lemma length_filter_mono {α : Type} (p q : α → Bool)
    (h : ∀ t, p t = true → q t = true) (l : List α) :
    (l.filter p).length ≤ (l.filter q).length := by
  induction l with
  | nil => exact Nat.le_refl 0
  | cons a l ih =>
    simp only [List.filter_cons]
    by_cases hp : p a = true
    · rw [if_pos hp, if_pos (h a hp)]; simpa using ih
    · rw [if_neg hp]
      cases hq : q a <;> simp [ih, Nat.le_succ_of_le]

lemma any_map_congr {α : Type} (f : α → α) (p : α → Bool) (h : ∀ a, p (f a) = p a)
    (l : List α) : (l.map f).any p = l.any p := by
  induction l with
  | nil => rfl
  | cons a l ih => simp [h a, ih]

/-! ### Existence checks as membership -/

lemma txIdExists_eq_true_iff (txs : List TxRow) (tid : String) :
    txIdExists txs tid = true ↔ tid ∈ txs.map (fun t => t.id) := by
  simp only [txIdExists, List.any_eq_true, List.mem_map, beq_iff_eq]

lemma batchIdExists_eq_true_iff (bs : List BatchRow) (bid : String) :
    batchIdExists bs bid = true ↔ ∃ b ∈ bs, b.id = bid := by
  simp only [batchIdExists, List.any_eq_true, beq_iff_eq]

lemma batchIdExists_eq_false_iff (bs : List BatchRow) (bid : String) :
    batchIdExists bs bid = false ↔ ∀ b ∈ bs, b.id ≠ bid := by
  rw [← Bool.not_eq_true, batchIdExists_eq_true_iff]
  push_neg
  rfl

/-! ### Lemmas about the ingestion loop -/

lemma ingest_spec (batchId now : String) (records : List RawRecord) (txs : List TxRow) :
    ∃ new : List TxRow,
      (ingestRecords batchId now records txs).txs = txs ++ new ∧
      (ingestRecords batchId now records txs).newCount = new.length ∧
      ∀ t ∈ new, t.batch_id = batchId ∧ t.processed = false ∧
        txIdExists txs t.id = false := by
  induction records generalizing txs with
  | nil => exact ⟨[], by simp [ingestRecords], rfl, by simp⟩
  | cons r rest ih =>
    cases r with
    | convFail => simpa only [ingestRecords] using ih txs
    | ok tid payload =>
      by_cases h0 : tid = ""
      · simp only [ingestRecords, if_pos h0]
        exact ih txs
      · by_cases hdup : txIdExists txs tid = true
        · simp only [ingestRecords, if_neg h0, hdup, if_true]
          exact ih txs
        · have hdup' : txIdExists txs tid = false := by simpa using hdup
          obtain ⟨new, h1, h2, h3⟩ := ih (txs ++ [⟨tid, batchId, payload, false, now⟩])
          refine ⟨⟨tid, batchId, payload, false, now⟩ :: new, ?_, ?_, ?_⟩
          · simp only [ingestRecords, if_neg h0, hdup', Bool.false_eq_true, if_false]
            rw [h1, List.append_assoc]
            rfl
          · simp only [ingestRecords, if_neg h0, hdup', Bool.false_eq_true, if_false]
            rw [h2]
            simp [Nat.add_comm]
          · intro t ht
            rcases List.mem_cons.mp ht with rfl | ht'
            · exact ⟨rfl, rfl, hdup'⟩
            · obtain ⟨hb, hp, hex⟩ := h3 t ht'
              refine ⟨hb, hp, ?_⟩
              simp only [txIdExists, List.any_append, Bool.or_eq_false_iff] at hex
              exact hex.1

lemma ingest_nodup (batchId now : String) (records : List RawRecord) (txs : List TxRow)
    (h : (txs.map (fun t => t.id)).Nodup) :
    (((ingestRecords batchId now records txs).txs).map (fun t => t.id)).Nodup := by
  induction records generalizing txs with
  | nil => simpa only [ingestRecords] using h
  | cons r rest ih =>
    cases r with
    | convFail => simpa only [ingestRecords] using ih txs h
    | ok tid payload =>
      by_cases h0 : tid = ""
      · simp only [ingestRecords, if_pos h0]
        exact ih txs h
      · by_cases hdup : txIdExists txs tid = true
        · simp only [ingestRecords, if_neg h0, hdup, if_true]
          exact ih txs h
        · have hdup' : txIdExists txs tid = false := by simpa using hdup
          simp only [ingestRecords, if_neg h0, hdup', Bool.false_eq_true, if_false]
          apply ih
          rw [List.map_append, List.nodup_append]
          refine ⟨h, List.nodup_singleton _, ?_⟩
          simp only [List.map_cons, List.map_nil, List.disjoint_singleton]
          intro hmem
          rw [← txIdExists_eq_true_iff] at hmem
          rw [hmem] at hdup'
          cases hdup'

lemma txIdExists_mono (txs more : List TxRow) (tid : String)
    (h : txIdExists txs tid = true) : txIdExists (txs ++ more) tid = true := by
  simp only [txIdExists] at h
  simp [txIdExists, List.any_append, h]

lemma ingest_mem_of_valid (batchId now : String) (records : List RawRecord)
    (txs : List TxRow) (tid payload : String)
    (hmem : RawRecord.ok tid payload ∈ records) (h0 : tid ≠ "") :
    txIdExists (ingestRecords batchId now records txs).txs tid = true := by
  induction records generalizing txs with
  | nil => cases hmem
  | cons r rest ih =>
    have hpre : ∀ txs2 : List TxRow, txIdExists txs2 tid = true →
        txIdExists (ingestRecords batchId now rest txs2).txs tid = true := by
      intro txs2 h2
      obtain ⟨new, h1, -, -⟩ := ingest_spec batchId now rest txs2
      rw [h1]
      exact txIdExists_mono txs2 new tid h2
    rcases List.mem_cons.mp hmem with heq | hrest
    · cases heq
      by_cases hdup : txIdExists txs tid = true
      · simp only [ingestRecords, if_neg h0, hdup, if_true]
        exact hpre txs hdup
      · have hdup' : txIdExists txs tid = false := by simpa using hdup
        simp only [ingestRecords, if_neg h0, hdup', Bool.false_eq_true, if_false]
        apply hpre
        simp [txIdExists, List.any_append]
    · cases r with
      | convFail =>
        simp only [ingestRecords]
        exact ih txs hrest
      | ok tid2 payload2 =>
        by_cases h02 : tid2 = ""
        · simp only [ingestRecords, if_pos h02]
          exact ih txs hrest
        · by_cases hdup2 : txIdExists txs tid2 = true
          · simp only [ingestRecords, if_neg h02, hdup2, if_true]
            exact ih txs hrest
          · have hdup2' : txIdExists txs tid2 = false := by simpa using hdup2
            simp only [ingestRecords, if_neg h02, hdup2', Bool.false_eq_true, if_false]
            exact ih _ hrest

lemma ingest_all_dup (batchId now : String) (records : List RawRecord)
    (txs : List TxRow)
    (h : ∀ tid payload, RawRecord.ok tid payload ∈ records → tid ≠ "" →
      txIdExists txs tid = true) :
    (ingestRecords batchId now records txs).txs = txs ∧
    (ingestRecords batchId now records txs).newCount = 0 := by
  induction records generalizing txs with
  | nil => exact ⟨rfl, rfl⟩
  | cons r rest ih =>
    cases r with
    | convFail =>
      simp only [ingestRecords]
      exact ih txs fun tid p hm => h tid p (List.mem_cons_of_mem _ hm)
    | ok tid payload =>
      by_cases h0 : tid = ""
      · simp only [ingestRecords, if_pos h0]
        exact ih txs fun tid2 p hm => h tid2 p (List.mem_cons_of_mem _ hm)
      · have hdup : txIdExists txs tid = true := h tid payload (List.mem_cons_self _ _) h0
        simp only [ingestRecords, if_neg h0, hdup, if_true]
        exact ih txs fun tid2 p hm => h tid2 p (List.mem_cons_of_mem _ hm)

/-- Evaluation of `create_transaction_batch` on a fresh batch id. -/
lemma create_fresh_eq (s : Store) (batchId now startDate endDate : String)
    (records : List RawRecord)
    (hex : batchIdExists s.batches batchId = false) :
    create_transaction_batch s batchId now startDate endDate records =
      ({ batches := s.batches ++
            [⟨batchId, "pending", now,
              (ingestRecords batchId now records s.transactions).newCount, 0,
              startDate, endDate, none⟩],
         transactions := (ingestRecords batchId now records s.transactions).txs },
       Except.ok
         ⟨batchId, "pending",
          (ingestRecords batchId now records s.transactions).newCount,
          createBatchMessage (ingestRecords batchId now records s.transactions).newCount
            (ingestRecords batchId now records s.transactions).dupCount⟩) := by
  simp only [create_transaction_batch, hex, Bool.false_eq_true, if_false]

/-! ### The store invariant -/

/-- Invariant of reachable stores: transaction ids are globally unique,
batch ids are unique, every transaction row points at an existing batch,
every batch row's `total_transactions` equals the number of its transaction
rows, its `processed_transactions` equals the exact count of its processed
rows, a `completed` batch has a full processed count, and a batch with a
positive full count is `completed`. -/
structure StoreInv (s : Store) : Prop where
  tx_nodup : (s.transactions.map (fun t => t.id)).Nodup
  batch_nodup : (s.batches.map (fun b => b.id)).Nodup
  tx_owner : ∀ t ∈ s.transactions, batchIdExists s.batches t.batch_id = true
  total_eq : ∀ b ∈ s.batches,
    b.total_transactions = (s.transactions.filter (fun t => t.batch_id == b.id)).length
  processed_eq : ∀ b ∈ s.batches,
    b.processed_transactions = countProcessed b.id s.transactions
  completed_imp : ∀ b ∈ s.batches, b.status = "completed" →
    b.processed_transactions = b.total_transactions
  full_imp : ∀ b ∈ s.batches, 0 < b.total_transactions →
    b.processed_transactions = b.total_transactions → b.status = "completed"

lemma StoreInv_empty : StoreInv ⟨[], []⟩ := by
  constructor <;> simp

lemma StoreInv_create (s : Store) (hs : StoreInv s) (batchId now startDate endDate : String)
    (records : List RawRecord) :
    StoreInv (create_transaction_batch s batchId now startDate endDate records).1 := by
  by_cases hex : batchIdExists s.batches batchId = true
  · simpa only [create_transaction_batch, hex, if_true] using hs
  · have hex' : batchIdExists s.batches batchId = false := by simpa using hex
    have hfresh : ∀ b ∈ s.batches, b.id ≠ batchId :=
      (batchIdExists_eq_false_iff s.batches batchId).mp hex'
    obtain ⟨new, htxs, hcnt, hnew⟩ := ingest_spec batchId now records s.transactions
    have holdid : ∀ t ∈ s.transactions, t.batch_id ≠ batchId := by
      intro t ht heq
      have h1 := hs.tx_owner t ht
      rw [heq, hex'] at h1
      cases h1
    rw [create_fresh_eq s batchId now startDate endDate records hex']
    dsimp only
    rw [hcnt]
    constructor
    · exact ingest_nodup batchId now records s.transactions hs.tx_nodup
    · simp only [List.map_append, List.map_cons, List.map_nil, List.nodup_append]
      refine ⟨hs.batch_nodup, List.nodup_singleton _, ?_⟩
      simp only [List.disjoint_singleton]
      intro hmem
      obtain ⟨b, hb, hbid⟩ := List.mem_map.mp hmem
      exact hfresh b hb hbid
    · intro t ht
      rw [htxs] at ht
      simp only [batchIdExists, List.any_append, List.any_cons, List.any_nil,
        Bool.or_false, Bool.or_eq_true]
      rcases List.mem_append.mp ht with hold | hnewm
      · left
        have := hs.tx_owner t hold
        simpa [batchIdExists] using this
      · right
        have := (hnew t hnewm).1
        simp [this]
    · intro b hb
      rcases List.mem_append.mp hb with hold | hnewb
      · have hne : b.id ≠ batchId := hfresh b hold
        rw [htxs, List.filter_append]
        have hnil : new.filter (fun t => t.batch_id == b.id) = [] := by
          rw [List.filter_eq_nil_iff]
          intro t ht
          have h1 := (hnew t ht).1
          simp [h1, Ne.symm hne]
        rw [hnil, List.append_nil]
        exact hs.total_eq b hold
      · have hb' : b = ⟨batchId, "pending", now, new.length, 0, startDate, endDate, none⟩ := by
          simpa using hnewb
        subst hb'
        rw [htxs, List.filter_append]
        have hnil : s.transactions.filter
            (fun t => t.batch_id == (⟨batchId, "pending", now, new.length, 0,
              startDate, endDate, none⟩ : BatchRow).id) = [] := by
          rw [List.filter_eq_nil_iff]
          intro t ht
          simp [holdid t ht]
        have hall : new.filter (fun t => t.batch_id == (⟨batchId, "pending", now,
            new.length, 0, startDate, endDate, none⟩ : BatchRow).id) = new := by
          rw [List.filter_eq_self]
          intro t ht
          simp [(hnew t ht).1]
        rw [hnil, hall]
        simp
    · intro b hb
      rcases List.mem_append.mp hb with hold | hnewb
      · have hne : b.id ≠ batchId := hfresh b hold
        rw [htxs]
        unfold countProcessed
        rw [List.filter_append]
        have hnil : new.filter (fun t => t.batch_id == b.id && t.processed) = [] := by
          rw [List.filter_eq_nil_iff]
          intro t ht
          simp [(hnew t ht).1, Ne.symm hne]
        rw [hnil, List.append_nil]
        exact hs.processed_eq b hold
      · have hb' : b = ⟨batchId, "pending", now, new.length, 0, startDate, endDate, none⟩ := by
          simpa using hnewb
        subst hb'
        rw [htxs]
        unfold countProcessed
        rw [List.filter_append]
        have hnil1 : s.transactions.filter (fun t => t.batch_id == (⟨batchId, "pending",
            now, new.length, 0, startDate, endDate, none⟩ : BatchRow).id && t.processed) = [] := by
          rw [List.filter_eq_nil_iff]
          intro t ht
          simp [holdid t ht]
        have hnil2 : new.filter (fun t => t.batch_id == (⟨batchId, "pending",
            now, new.length, 0, startDate, endDate, none⟩ : BatchRow).id && t.processed) = [] := by
          rw [List.filter_eq_nil_iff]
          intro t ht
          simp [(hnew t ht).2.1]
        rw [hnil1, hnil2]
        simp
    · intro b hb
      rcases List.mem_append.mp hb with hold | hnewb
      · exact hs.completed_imp b hold
      · have hb' : b = ⟨batchId, "pending", now, new.length, 0, startDate, endDate, none⟩ := by
          simpa using hnewb
        subst hb'
        intro hst
        have hne : ("pending" : String) ≠ "completed" := by decide
        exact absurd hst hne
    · intro b hb
      rcases List.mem_append.mp hb with hold | hnewb
      · exact hs.full_imp b hold
      · have hb' : b = ⟨batchId, "pending", now, new.length, 0, startDate, endDate, none⟩ := by
          simpa using hnewb
        subst hb'
        intro hpos hfull
        simp only at hpos hfull
        omega

/-! ### Lemmas about the marking endpoint -/

lemma updateProcessedCount_id (bid : String) (c : Nat) (b : BatchRow) :
    (updateProcessedCount bid c b).id = b.id := by
  unfold updateProcessedCount; split <;> rfl

lemma updateProcessedCount_total (bid : String) (c : Nat) (b : BatchRow) :
    (updateProcessedCount bid c b).total_transactions = b.total_transactions := by
  unfold updateProcessedCount; split <;> rfl

lemma updateProcessedCount_status (bid : String) (c : Nat) (b : BatchRow) :
    (updateProcessedCount bid c b).status = b.status := by
  unfold updateProcessedCount; split <;> rfl

lemma updateProcessedCount_of_eq (bid : String) (c : Nat) (b : BatchRow)
    (h : b.id = bid) :
    updateProcessedCount bid c b = { b with processed_transactions := c } := by
  have h1 : (b.id == bid) = true := by simpa using h
  unfold updateProcessedCount
  rw [h1]
  rfl

lemma updateProcessedCount_of_ne (bid : String) (c : Nat) (b : BatchRow)
    (h : b.id ≠ bid) : updateProcessedCount bid c b = b := by
  have h1 : (b.id == bid) = false := by simpa using h
  unfold updateProcessedCount
  rw [h1]
  rfl

lemma setCompleted_id (bid : String) (b : BatchRow) :
    (setCompleted bid b).id = b.id := by
  unfold setCompleted; split <;> rfl

lemma setCompleted_total (bid : String) (b : BatchRow) :
    (setCompleted bid b).total_transactions = b.total_transactions := by
  unfold setCompleted; split <;> rfl

lemma setCompleted_processed (bid : String) (b : BatchRow) :
    (setCompleted bid b).processed_transactions = b.processed_transactions := by
  unfold setCompleted; split <;> rfl

lemma setCompleted_of_eq (bid : String) (b : BatchRow) (h : b.id = bid) :
    setCompleted bid b = { b with status := "completed" } := by
  have h1 : (b.id == bid) = true := by simpa using h
  unfold setCompleted
  rw [h1]
  rfl

lemma setCompleted_of_ne (bid : String) (b : BatchRow) (h : b.id ≠ bid) :
    setCompleted bid b = b := by
  have h1 : (b.id == bid) = false := by simpa using h
  unfold setCompleted
  rw [h1]
  rfl

lemma map_markFun_ids (bid : String) (tids : List String) (txs : List TxRow) :
    (txs.map (markFun bid tids)).map (fun t => t.id) = txs.map (fun t => t.id) := by
  rw [List.map_map]
  exact List.map_congr_left fun t _ => markFun_id_eq bid tids t

lemma map_batch_update_ids (f : BatchRow → BatchRow) (hf : ∀ b, (f b).id = b.id)
    (bs : List BatchRow) :
    (bs.map f).map (fun b => b.id) = bs.map (fun b => b.id) := by
  rw [List.map_map]
  exact List.map_congr_left fun b _ => hf b

lemma batchIdExists_map (f : BatchRow → BatchRow) (hf : ∀ b, (f b).id = b.id)
    (bs : List BatchRow) (x : String) :
    batchIdExists (bs.map f) x = batchIdExists bs x := by
  unfold batchIdExists
  apply any_map_congr
  intro b
  rw [hf b]

lemma filter_batch_map_eq (bid q : String) (tids : List String) (txs : List TxRow) :
    ((txs.map (markFun bid tids)).filter (fun t => t.batch_id == q)).length =
    (txs.filter (fun t => t.batch_id == q)).length := by
  apply length_filter_map_congr
  intro t
  rw [markFun_batch_id_eq]

lemma countProcessed_map_ne (bid q : String) (tids : List String) (txs : List TxRow)
    (hq : q ≠ bid) :
    countProcessed q (txs.map (markFun bid tids)) = countProcessed q txs := by
  unfold countProcessed
  apply length_filter_map_congr
  intro t
  by_cases hbq : t.batch_id = q
  · have hnb : t.batch_id ≠ bid := by rw [hbq]; exact hq
    rw [markFun_eq_self bid tids t hnb]
  · have h1 : (t.batch_id == q) = false := by simpa using hbq
    have h2 : ((markFun bid tids t).batch_id == q) = false := by
      rw [markFun_batch_id_eq]; exact h1
    rw [h1, h2, Bool.false_and, Bool.false_and]

lemma countProcessed_le_map (bid : String) (tids : List String) (txs : List TxRow) :
    countProcessed bid txs ≤ countProcessed bid (txs.map (markFun bid tids)) := by
  unfold countProcessed
  apply length_filter_le_length_filter_map
  intro t ht
  have h1 := Bool.and_eq_true_iff.mp ht
  rw [Bool.and_eq_true_iff]
  constructor
  · rw [markFun_batch_id_eq]; exact h1.1
  · exact markFun_processed_true bid tids t h1.2

lemma countProcessed_le_filter (q : String) (txs : List TxRow) :
    countProcessed q txs ≤ (txs.filter (fun t => t.batch_id == q)).length := by
  unfold countProcessed
  apply length_filter_mono
  intro t ht
  exact (Bool.and_eq_true_iff.mp ht).1

lemma find?_id_unique (bs : List BatchRow) (hnd : (bs.map (fun b => b.id)).Nodup)
    (b : BatchRow) (hb : b ∈ bs) (bid : String) (hid : b.id = bid) :
    bs.find? (fun x => x.id == bid) = some b := by
  induction bs with
  | nil => cases hb
  | cons a rest ih =>
    simp only [List.map_cons, List.nodup_cons] at hnd
    rcases List.mem_cons.mp hb with rfl | hmem
    · have h1 : (b.id == bid) = true := by simpa using hid
      exact List.find?_cons_of_pos _ h1
    · have hane : a.id ≠ bid := by
        intro he
        apply hnd.1
        rw [he, ← hid]
        exact List.mem_map_of_mem (fun x => x.id) hmem
      have h1 : ¬ ((a.id == bid) = true) := by simpa using hane
      rw [List.find?_cons_of_neg (p := fun x => x.id == bid) rest h1]
      exact ih hnd.2 hmem

/-- Behavior of `mark_transactions_processed` on a batch id absent from the store: the
UPDATEs match no rows, the completion SELECT finds no row, and the handler
returns success with `marked_processed = len(transaction_ids)` while the
store is unchanged. -/
lemma mark_absent (s : Store) (hs : StoreInv s) (bid : String) (tids : List String)
    (hex : batchIdExists s.batches bid = false) :
    mark_transactions_processed s bid tids =
      (s, Except.ok ⟨bid, tids.length, markMessage tids.length⟩) := by
  have hfresh : ∀ b ∈ s.batches, b.id ≠ bid :=
    (batchIdExists_eq_false_iff s.batches bid).mp hex
  have holdid : ∀ t ∈ s.transactions, t.batch_id ≠ bid := by
    intro t ht heq
    have h1 := hs.tx_owner t ht
    rw [heq, hex] at h1
    cases h1
  have htxs : markAll bid tids s.transactions = s.transactions := by
    rw [markAll_eq_map]
    have h1 : ∀ t ∈ s.transactions, markFun bid tids t = id t := fun t ht =>
      markFun_eq_self bid tids t (holdid t ht)
    rw [List.map_congr_left h1, List.map_id]
  have hbs : ∀ c : Nat,
      s.batches.map (updateProcessedCount bid c) = s.batches := by
    intro c
    have h1 : ∀ b ∈ s.batches, updateProcessedCount bid c b = id b := fun b hb =>
      updateProcessedCount_of_ne bid c b (hfresh b hb)
    rw [List.map_congr_left h1, List.map_id]
  have hfind : s.batches.find? (fun b => b.id == bid) = none := by
    rw [List.find?_eq_none]
    intro b hb
    simpa using hfresh b hb
  simp only [mark_transactions_processed, htxs, hbs, hfind]

/-- Shape of the store produced by `mark_transactions_processed` when the
completion SELECT finds a row. -/
lemma mark_store_of_find (s : Store) (bid : String) (tids : List String) (row : BatchRow)
    (hfind : (s.batches.map (updateProcessedCount bid
        (countProcessed bid (s.transactions.map (markFun bid tids))))).find?
        (fun b => b.id == bid) = some row) :
    (mark_transactions_processed s bid tids).1 =
      if (row.total_transactions == row.processed_transactions) = true then
        ⟨(s.batches.map (updateProcessedCount bid
            (countProcessed bid (s.transactions.map (markFun bid tids))))).map
            (setCompleted bid),
          s.transactions.map (markFun bid tids)⟩
      else
        ⟨s.batches.map (updateProcessedCount bid
            (countProcessed bid (s.transactions.map (markFun bid tids)))),
          s.transactions.map (markFun bid tids)⟩ := by
  have htxs := markAll_eq_map bid tids s.transactions
  simp only [mark_transactions_processed, htxs, hfind]
  by_cases hcond : (row.total_transactions == row.processed_transactions) = true
  · rw [if_pos hcond, if_pos hcond]
  · rw [if_neg hcond, if_neg hcond]

/-- Preservation of the store invariant by `mark_transactions_processed`,
together with the characterization of the target batch after the call: its
status is `completed` exactly when its recomputed processed count equals its
total (with no positivity requirement on the total). -/
lemma mark_main (s : Store) (hs : StoreInv s) (bid : String) (tids : List String) :
    StoreInv (mark_transactions_processed s bid tids).1 ∧
    ∀ b ∈ ((mark_transactions_processed s bid tids).1).batches, b.id = bid →
      (b.status = "completed" ↔ b.processed_transactions = b.total_transactions) := by
  by_cases hex : batchIdExists s.batches bid = true
  case neg =>
    have hex' : batchIdExists s.batches bid = false := by simpa using hex
    rw [mark_absent s hs bid tids hex']
    refine ⟨hs, ?_⟩
    intro b hb hid
    exact absurd hid ((batchIdExists_eq_false_iff s.batches bid).mp hex' b hb)
  case pos =>
    obtain ⟨b0, hb0, hb0id⟩ := (batchIdExists_eq_true_iff s.batches bid).mp hex
    have factC := countProcessed_le_map bid tids s.transactions
    have factD : countProcessed bid (s.transactions.map (markFun bid tids))
        ≤ (s.transactions.filter (fun t => t.batch_id == bid)).length :=
      le_trans (countProcessed_le_filter bid (s.transactions.map (markFun bid tids)))
        (le_of_eq (filter_batch_map_eq bid bid tids s.transactions))
    have huniq : ∀ b ∈ s.batches, b.id = bid → b = b0 := by
      intro b hb hbid
      exact List.inj_on_of_nodup_map hs.batch_nodup hb hb0 (by rw [hbid, hb0id])
    have hnd2 : ((s.batches.map (updateProcessedCount bid
        (countProcessed bid (s.transactions.map (markFun bid tids))))).map
        (fun b => b.id)).Nodup := by
      rw [map_batch_update_ids _ (updateProcessedCount_id bid _) s.batches]
      exact hs.batch_nodup
    have hfind : (s.batches.map (updateProcessedCount bid
        (countProcessed bid (s.transactions.map (markFun bid tids))))).find?
        (fun b => b.id == bid)
        = some (updateProcessedCount bid
            (countProcessed bid (s.transactions.map (markFun bid tids))) b0) := by
      apply find?_id_unique _ hnd2 _ (List.mem_map_of_mem _ hb0)
      rw [updateProcessedCount_id]
      exact hb0id
    rw [mark_store_of_find s bid tids _ hfind]
    by_cases hc : b0.total_transactions
        = countProcessed bid (s.transactions.map (markFun bid tids))
    · -- total equals the recomputed count: the batch is set to completed
      have hcond : ((updateProcessedCount bid
          (countProcessed bid (s.transactions.map (markFun bid tids))) b0).total_transactions ==
          (updateProcessedCount bid
          (countProcessed bid (s.transactions.map (markFun bid tids))) b0).processed_transactions)
          = true := by
        rw [updateProcessedCount_of_eq _ _ _ hb0id]
        simpa using hc
      rw [if_pos hcond]
      constructor
      · constructor
        · rw [map_markFun_ids]
          exact hs.tx_nodup
        · rw [map_batch_update_ids _ (setCompleted_id bid) _,
              map_batch_update_ids _ (updateProcessedCount_id bid _) s.batches]
          exact hs.batch_nodup
        · intro t ht
          obtain ⟨t0, ht0, rfl⟩ := List.mem_map.mp ht
          rw [markFun_batch_id_eq]
          rw [batchIdExists_map _ (setCompleted_id bid),
              batchIdExists_map _ (updateProcessedCount_id bid _)]
          exact hs.tx_owner t0 ht0
        · intro b' hb'
          obtain ⟨b1, hb1, rfl⟩ := List.mem_map.mp hb'
          obtain ⟨b, hb, rfl⟩ := List.mem_map.mp hb1
          rw [setCompleted_total, updateProcessedCount_total,
              setCompleted_id, updateProcessedCount_id,
              filter_batch_map_eq bid b.id tids s.transactions]
          exact hs.total_eq b hb
        · intro b' hb'
          obtain ⟨b1, hb1, rfl⟩ := List.mem_map.mp hb'
          obtain ⟨b, hb, rfl⟩ := List.mem_map.mp hb1
          rw [setCompleted_processed, setCompleted_id, updateProcessedCount_id]
          by_cases hbid : b.id = bid
          · rw [updateProcessedCount_of_eq _ _ _ hbid, hbid]
          · rw [updateProcessedCount_of_ne _ _ _ hbid,
                countProcessed_map_ne bid b.id tids s.transactions hbid]
            exact hs.processed_eq b hb
        · intro b' hb' hst
          obtain ⟨b1, hb1, rfl⟩ := List.mem_map.mp hb'
          obtain ⟨b, hb, rfl⟩ := List.mem_map.mp hb1
          by_cases hbid : b.id = bid
          · have hbb0 : b = b0 := huniq b hb hbid
            subst hbb0
            rw [setCompleted_processed, setCompleted_total,
                updateProcessedCount_total, updateProcessedCount_of_eq _ _ _ hbid]
            exact hc.symm
          · have hUne : (updateProcessedCount bid
                (countProcessed bid (s.transactions.map (markFun bid tids))) b).id ≠ bid := by
              rw [updateProcessedCount_id]; exact hbid
            rw [setCompleted_of_ne _ _ hUne, updateProcessedCount_of_ne _ _ _ hbid] at hst ⊢
            exact hs.completed_imp b hb hst
        · intro b' hb' hpos hfull
          obtain ⟨b1, hb1, rfl⟩ := List.mem_map.mp hb'
          obtain ⟨b1x, hb, rfl⟩ := List.mem_map.mp hb1
          by_cases hbid : b1x.id = bid
          · have hUeq : (updateProcessedCount bid
                (countProcessed bid (s.transactions.map (markFun bid tids))) b1x).id = bid := by
              rw [updateProcessedCount_id]; exact hbid
            rw [setCompleted_of_eq _ _ hUeq]
          · have hUne : (updateProcessedCount bid
                (countProcessed bid (s.transactions.map (markFun bid tids))) b1x).id ≠ bid := by
              rw [updateProcessedCount_id]; exact hbid
            rw [setCompleted_of_ne _ _ hUne, updateProcessedCount_of_ne _ _ _ hbid] at hpos hfull ⊢
            exact hs.full_imp b1x hb hpos hfull
      · intro b' hb' hbid'
        obtain ⟨b1, hb1, rfl⟩ := List.mem_map.mp hb'
        obtain ⟨b, hb, rfl⟩ := List.mem_map.mp hb1
        rw [setCompleted_id, updateProcessedCount_id] at hbid'
        have hbb0 : b = b0 := huniq b hb hbid'
        subst hbb0
        have hUeq : (updateProcessedCount bid
            (countProcessed bid (s.transactions.map (markFun bid tids))) b).id = bid := by
          rw [updateProcessedCount_id]; exact hbid'
        rw [setCompleted_of_eq _ _ hUeq, updateProcessedCount_of_eq _ _ _ hbid']
        constructor
        · intro _
          exact hc.symm
        · intro _
          rfl
    · -- total differs from the recomputed count: the status is untouched
      have hcond : ¬ (((updateProcessedCount bid
          (countProcessed bid (s.transactions.map (markFun bid tids))) b0).total_transactions ==
          (updateProcessedCount bid
          (countProcessed bid (s.transactions.map (markFun bid tids))) b0).processed_transactions)
          = true) := by
        rw [updateProcessedCount_of_eq _ _ _ hb0id]
        simpa using hc
      rw [if_neg hcond]
      have hble2 : countProcessed bid (s.transactions.map (markFun bid tids))
          ≤ b0.total_transactions := by
        have h2 := hs.total_eq b0 hb0
        rw [hb0id] at h2
        rw [h2]
        exact factD
      have hnc : b0.status ≠ "completed" := by
        intro hst
        apply hc
        have h1 := hs.completed_imp b0 hb0 hst
        have h2 := hs.processed_eq b0 hb0
        rw [hb0id] at h2
        omega
      constructor
      · constructor
        · rw [map_markFun_ids]
          exact hs.tx_nodup
        · rw [map_batch_update_ids _ (updateProcessedCount_id bid _) s.batches]
          exact hs.batch_nodup
        · intro t ht
          obtain ⟨t0, ht0, rfl⟩ := List.mem_map.mp ht
          rw [markFun_batch_id_eq]
          rw [batchIdExists_map _ (updateProcessedCount_id bid _)]
          exact hs.tx_owner t0 ht0
        · intro b' hb'
          obtain ⟨b, hb, rfl⟩ := List.mem_map.mp hb'
          rw [updateProcessedCount_total, updateProcessedCount_id,
              filter_batch_map_eq bid b.id tids s.transactions]
          exact hs.total_eq b hb
        · intro b' hb'
          obtain ⟨b, hb, rfl⟩ := List.mem_map.mp hb'
          rw [updateProcessedCount_id]
          by_cases hbid : b.id = bid
          · rw [updateProcessedCount_of_eq _ _ _ hbid, hbid]
          · rw [updateProcessedCount_of_ne _ _ _ hbid,
                countProcessed_map_ne bid b.id tids s.transactions hbid]
            exact hs.processed_eq b hb
        · intro b' hb' hst
          obtain ⟨b, hb, rfl⟩ := List.mem_map.mp hb'
          by_cases hbid : b.id = bid
          · have hbb0 : b = b0 := huniq b hb hbid
            subst hbb0
            rw [updateProcessedCount_status] at hst
            exact absurd hst hnc
          · rw [updateProcessedCount_of_ne _ _ _ hbid] at hst ⊢
            exact hs.completed_imp b hb hst
        · intro b' hb' hpos hfull
          obtain ⟨b, hb, rfl⟩ := List.mem_map.mp hb'
          by_cases hbid : b.id = bid
          · have hbb0 : b = b0 := huniq b hb hbid
            subst hbb0
            rw [updateProcessedCount_of_eq _ _ _ hbid] at hfull
            exact absurd hfull.symm hc
          · rw [updateProcessedCount_of_ne _ _ _ hbid] at hpos hfull ⊢
            exact hs.full_imp b hb hpos hfull
      · intro b' hb' hbid'
        obtain ⟨b, hb, rfl⟩ := List.mem_map.mp hb'
        rw [updateProcessedCount_id] at hbid'
        have hbb0 : b = b0 := huniq b hb hbid'
        subst hbb0
        rw [updateProcessedCount_of_eq _ _ _ hbid']
        constructor
        · intro hst
          exact absurd hst hnc
        · intro hfull
          exact absurd hfull.symm hc

/-- Every reachable store satisfies the invariant. -/
lemma StoreInv_reachable (s : Store) (h : Reachable s) : StoreInv s := by
  induction h with
  | empty => exact StoreInv_empty
  | create s0 batchId now startDate endDate records _ ih =>
    exact StoreInv_create s0 ih batchId now startDate endDate records
  | mark s0 batchId tids _ ih =>
    exact (mark_main s0 ih batchId tids).1

/-! ### Helper lemmas for the query layer and record skipping -/

lemma ingest_skip (batchId now : String) (bad : RawRecord)
    (hbad : bad = RawRecord.convFail ∨ ∃ p, bad = RawRecord.ok "" p)
    (pre post : List RawRecord) (txs : List TxRow) :
    ingestRecords batchId now (pre ++ bad :: post) txs =
    ingestRecords batchId now (pre ++ post) txs := by
  induction pre generalizing txs with
  | nil =>
    rcases hbad with rfl | ⟨p, rfl⟩
    · rfl
    · simp [ingestRecords]
  | cons r pre ih =>
    cases r with
    | convFail =>
      simp only [List.cons_append, ingestRecords, List.append_eq]
      exact ih txs
    | ok tid payload =>
      simp only [List.cons_append, ingestRecords, List.append_eq]
      by_cases h0 : tid = ""
      · rw [if_pos h0, if_pos h0]
        exact ih txs
      · rw [if_neg h0, if_neg h0]
        by_cases hdup : txIdExists txs tid = true
        · rw [if_pos hdup, if_pos hdup, ih txs]
        · rw [if_neg hdup, if_neg hdup, ih _]

lemma txMatches_true_iff (batchId : String) (pf : Option Bool) (t : TxRow) :
    txMatches batchId pf t = true ↔
      t.batch_id = batchId ∧ ∀ p : Bool, pf = some p → t.processed = p := by
  cases pf with
  | none =>
    simp only [txMatches, Bool.and_true, beq_iff_eq]
    exact ⟨fun h => ⟨h, by intro p hp; cases hp⟩, fun h => h.1⟩
  | some p =>
    simp only [txMatches, Bool.and_eq_true, beq_iff_eq]
    constructor
    · rintro ⟨h1, h2⟩
      refine ⟨h1, ?_⟩
      intro q hq
      cases hq
      exact h2
    · rintro ⟨h1, h2⟩
      exact ⟨h1, h2 p rfl⟩

lemma createdAsc_trans (a b c : TxRow) (hab : createdAsc a b = true)
    (hbc : createdAsc b c = true) : createdAsc a c = true := by
  simp only [createdAsc, decide_eq_true_eq] at hab hbc ⊢
  exact le_trans hab hbc

lemma createdAsc_total (a b : TxRow) : (createdAsc a b || createdAsc b a) = true := by
  simp only [createdAsc, Bool.or_eq_true, decide_eq_true_eq]
  exact le_total a.created_at b.created_at

lemma createdDesc_trans (a b c : BatchRow) (hab : createdDesc a b = true)
    (hbc : createdDesc b c = true) : createdDesc a c = true := by
  simp only [createdDesc, decide_eq_true_eq] at hab hbc ⊢
  exact le_trans hbc hab

lemma createdDesc_total (a b : BatchRow) : (createdDesc a b || createdDesc b a) = true := by
  simp only [createdDesc, Bool.or_eq_true, decide_eq_true_eq]
  exact le_total b.created_at a.created_at

lemma get_batch_transactions_transactions (s : Store) (batchId : String)
    (limit offset : Nat) (pf : Option Bool) :
    (get_batch_transactions s batchId limit offset pf).transactions =
    ((((s.transactions.filter (txMatches batchId pf)).mergeSort createdAsc).drop
        offset).take limit).map
      (fun t => TxItem.mk t.id t.transaction_data t.processed t.created_at) := rfl

lemma list_transaction_batches_batches (s : Store) (status : Option String) (limit : Nat) :
    (list_transaction_batches s status limit).batches =
    (((filterBatches s.batches status).mergeSort createdDesc).take limit).map
      mkBatchSummary := rfl

lemma filterBatches_status (bs : List BatchRow) (f : String) (hf : f ≠ "")
    (b : BatchRow) (hb : b ∈ filterBatches bs (some f)) : b.status = f := by
  simp only [filterBatches] at hb
  rw [if_neg hf] at hb
  have h1 := List.mem_filter.mp hb
  simpa using h1.2

/-! ### Claim theorems -/

/-- Claim C1, counterexample to the claim as stated.  The completion check of
`mark_transactions_processed` is `row[0] == row[1]` with no positivity
requirement, so calling mark-processed (here with an empty id list) on a
batch whose `total_transactions` is 0 sets its status to `completed`.  The
resulting store is reachable and contains a batch with status `completed`
and `total_transactions = 0`, contradicting the claimed requirement that
`completed` holds only when the total is positive. -/
theorem C1_counterexample_zero_total_completed :
    Reachable (mark_transactions_processed
      (create_transaction_batch ⟨[], []⟩ "batch_20240101_000000_0"
        "2024-01-01T00:00:00" "2024-01-01" "2024-01-31" []).1
      "batch_20240101_000000_0" []).1 ∧
    ((mark_transactions_processed
      (create_transaction_batch ⟨[], []⟩ "batch_20240101_000000_0"
        "2024-01-01T00:00:00" "2024-01-01" "2024-01-31" []).1
      "batch_20240101_000000_0" []).1).batches.map
      (fun b => (b.status, b.total_transactions, b.processed_transactions))
      = [("completed", 0, 0)] := by
  constructor
  · exact Reachable.mark _ _ _ (Reachable.create _ _ _ _ _ _ Reachable.empty)
  · rfl

/-- Claim C1 (amended): in every reachable store, a batch with status
`completed` has `processed_transactions = total_transactions`, and a batch
with a positive total and a full processed count has status `completed`; the
claimed equivalence fails only in the zero-total case, because
`mark_transactions_processed` sets status to `completed` exactly when the
recomputed processed count equals the total — including when the total is 0.
After any mark-processed call, the target batch has status `completed` if
and only if its processed count equals its total. -/
theorem C1_completion_law_amended (s : Store) (h : Reachable s) :
    (∀ b ∈ s.batches,
      (b.status = "completed" → b.processed_transactions = b.total_transactions) ∧
      (0 < b.total_transactions → b.processed_transactions = b.total_transactions →
        b.status = "completed")) ∧
    (∀ batchId : String, ∀ tids : List String,
      ∀ b ∈ ((mark_transactions_processed s batchId tids).1).batches, b.id = batchId →
        (b.status = "completed" ↔ b.processed_transactions = b.total_transactions)) := by
  have hs := StoreInv_reachable s h
  refine ⟨fun b hb => ⟨hs.completed_imp b hb, hs.full_imp b hb⟩, ?_⟩
  intro batchId tids b hb hbid
  exact (mark_main s hs batchId tids).2 b hb hbid

/-- Witness for the amended C1 theorem at a concrete reachable store. -/
theorem C1_completion_law_amended_witness :
    Reachable (create_transaction_batch ⟨[], []⟩ "b1" "t0" "2024-01-01" "2024-01-31"
      [RawRecord.ok "t1" "d1"]).1 ∧
    ((∀ b ∈ ((create_transaction_batch ⟨[], []⟩ "b1" "t0" "2024-01-01" "2024-01-31"
        [RawRecord.ok "t1" "d1"]).1).batches,
      (b.status = "completed" → b.processed_transactions = b.total_transactions) ∧
      (0 < b.total_transactions → b.processed_transactions = b.total_transactions →
        b.status = "completed")) ∧
    (∀ batchId : String, ∀ tids : List String,
      ∀ b ∈ ((mark_transactions_processed
          (create_transaction_batch ⟨[], []⟩ "b1" "t0" "2024-01-01" "2024-01-31"
            [RawRecord.ok "t1" "d1"]).1 batchId tids).1).batches, b.id = batchId →
        (b.status = "completed" ↔ b.processed_transactions = b.total_transactions))) :=
  ⟨Reachable.create _ _ _ _ _ _ Reachable.empty,
   C1_completion_law_amended _ (Reachable.create _ _ _ _ _ _ Reachable.empty)⟩

/-- Claim C2, code bug.  `get_batch_status` does raise
`HTTPException(404, "Batch ... not found")` for an unknown batch id, but that
raise happens inside the handler's own `try:` block, whose blanket
`except Exception as e:` catches it and re-raises
`HTTPException(500, f"Failed to get batch status: {e}")`; the caller
therefore receives HTTP 500, not the 404 the code itself (and the claim)
intends.  The first conjunct evaluates the handler as the caller sees it;
the second shows the intended 404 of the `try:` body. -/
theorem C2_get_status_unknown_is_500_not_404 :
    get_batch_status ⟨[], []⟩ "missing" =
      Except.error ⟨500, "Failed to get batch status: 404: Batch missing not found"⟩ ∧
    get_batch_status_inner ⟨[], []⟩ "missing" =
      Except.error ⟨404, "Batch missing not found"⟩ :=
  ⟨rfl, rfl⟩

/-- Claim C3, counterexample to the claim as stated.
`mark_transactions_processed` has no existence check on the batch id: on an
empty store and an unknown batch id it returns success with
`marked_processed = 1` (the length of the input list) instead of a
`NotFoundError`, leaving the store unchanged. -/
theorem C3_counterexample_no_not_found :
    mark_transactions_processed ⟨[], []⟩ "ghost" ["t1"] =
      ((⟨[], []⟩ : Store),
        Except.ok ⟨"ghost", 1, "Marked 1 transactions as processed"⟩) := rfl

/-- Claim C3 (amended): for every reachable store and batch id not present
in it, `mark_transactions_processed` succeeds — returning
`marked_processed = tids.length` — and the store is unchanged; no
`NotFoundError` is produced. -/
theorem C3_mark_unknown_batch_succeeds_unchanged (s : Store) (h : Reachable s)
    (batchId : String) (tids : List String)
    (hex : batchIdExists s.batches batchId = false) :
    mark_transactions_processed s batchId tids =
      (s, Except.ok ⟨batchId, tids.length, markMessage tids.length⟩) :=
  mark_absent s (StoreInv_reachable s h) batchId tids hex

/-- Witness for the amended C3 theorem at a concrete input. -/
theorem C3_mark_unknown_batch_succeeds_unchanged_witness :
    Reachable (⟨[], []⟩ : Store) ∧
    batchIdExists (⟨[], []⟩ : Store).batches "ghost" = false ∧
    mark_transactions_processed ⟨[], []⟩ "ghost" ["t1", "t2"] =
      ((⟨[], []⟩ : Store), Except.ok ⟨"ghost", 2, markMessage 2⟩) :=
  ⟨Reachable.empty, rfl,
   C3_mark_unknown_batch_succeeds_unchanged ⟨[], []⟩ Reachable.empty "ghost"
     ["t1", "t2"] rfl⟩

/-- Claim C4: every successful `create_transaction_batch` call appends
exactly one batch row whose `total_transactions` equals the number of
transaction rows actually inserted (each inserted row carries the new batch
id and an id that was not already in the store), not the raw fetch count;
the batch starts with `processed_transactions = 0` and `status = pending`,
and the response reports the same novel count. -/
theorem C4_create_batch_counts (s : Store) (batchId now startDate endDate : String)
    (records : List RawRecord)
    (hfresh : batchIdExists s.batches batchId = false) :
    ∃ b : BatchRow, ∃ inserted : List TxRow,
      (create_transaction_batch s batchId now startDate endDate records).1.batches
        = s.batches ++ [b] ∧
      (create_transaction_batch s batchId now startDate endDate records).1.transactions
        = s.transactions ++ inserted ∧
      b.id = batchId ∧ b.status = "pending" ∧ b.processed_transactions = 0 ∧
      b.total_transactions = inserted.length ∧
      (∀ t ∈ inserted, t.batch_id = batchId ∧ txIdExists s.transactions t.id = false) ∧
      (create_transaction_batch s batchId now startDate endDate records).2 =
        Except.ok ⟨batchId, "pending", inserted.length,
          createBatchMessage inserted.length
            (ingestRecords batchId now records s.transactions).dupCount⟩ := by
  obtain ⟨new, htxs, hcnt, hnew⟩ := ingest_spec batchId now records s.transactions
  rw [create_fresh_eq s batchId now startDate endDate records hfresh]
  refine ⟨⟨batchId, "pending", now,
      (ingestRecords batchId now records s.transactions).newCount, 0,
      startDate, endDate, none⟩, new, rfl, htxs, rfl, rfl, rfl, hcnt,
    fun t ht => ⟨(hnew t ht).1, (hnew t ht).2.2⟩, ?_⟩
  rw [hcnt]

/-- Witness for C4 at a concrete input: four raw records, of which one has
an empty id, one fails conversion, and one duplicates an id from the same
fetch, leaving a single inserted row. -/
theorem C4_create_batch_counts_witness :
    batchIdExists (⟨[], []⟩ : Store).batches "b1" = false ∧
    (∃ b : BatchRow, ∃ inserted : List TxRow,
      (create_transaction_batch ⟨[], []⟩ "b1" "t0" "2024-01-01" "2024-01-31"
        [RawRecord.ok "t1" "d1", RawRecord.ok "" "x", RawRecord.convFail,
         RawRecord.ok "t1" "d2"]).1.batches
        = (⟨[], []⟩ : Store).batches ++ [b] ∧
      (create_transaction_batch ⟨[], []⟩ "b1" "t0" "2024-01-01" "2024-01-31"
        [RawRecord.ok "t1" "d1", RawRecord.ok "" "x", RawRecord.convFail,
         RawRecord.ok "t1" "d2"]).1.transactions
        = (⟨[], []⟩ : Store).transactions ++ inserted ∧
      b.id = "b1" ∧ b.status = "pending" ∧ b.processed_transactions = 0 ∧
      b.total_transactions = inserted.length ∧
      (∀ t ∈ inserted, t.batch_id = "b1" ∧
        txIdExists (⟨[], []⟩ : Store).transactions t.id = false) ∧
      (create_transaction_batch ⟨[], []⟩ "b1" "t0" "2024-01-01" "2024-01-31"
        [RawRecord.ok "t1" "d1", RawRecord.ok "" "x", RawRecord.convFail,
         RawRecord.ok "t1" "d2"]).2 =
        Except.ok ⟨"b1", "pending", inserted.length,
          createBatchMessage inserted.length
            (ingestRecords "b1" "t0"
              [RawRecord.ok "t1" "d1", RawRecord.ok "" "x", RawRecord.convFail,
               RawRecord.ok "t1" "d2"]
              (⟨[], []⟩ : Store).transactions).dupCount⟩) :=
  ⟨rfl, C4_create_batch_counts ⟨[], []⟩ "b1" "t0" "2024-01-01" "2024-01-31"
    [RawRecord.ok "t1" "d1", RawRecord.ok "" "x", RawRecord.convFail,
     RawRecord.ok "t1" "d2"] rfl⟩

/-- Claim C5: in every reachable store, transaction ids are globally unique
across all batches — the ids of the transaction table have no duplicates,
and any two rows with the same id (being the same row) belong to the same
batch. -/
theorem C5_global_uniqueness (s : Store) (h : Reachable s) :
    (s.transactions.map (fun t => t.id)).Nodup ∧
    ∀ t1 ∈ s.transactions, ∀ t2 ∈ s.transactions, t1.id = t2.id →
      t1.batch_id = t2.batch_id := by
  have hs := StoreInv_reachable s h
  refine ⟨hs.tx_nodup, ?_⟩
  intro t1 h1 t2 h2 hid
  have h12 : t1 = t2 := List.inj_on_of_nodup_map hs.tx_nodup h1 h2 hid
  rw [h12]

/-- Witness for C5: a reachable store built by two ingestions whose fetches
share the id t2. -/
theorem C5_global_uniqueness_witness :
    Reachable (create_transaction_batch
      (create_transaction_batch ⟨[], []⟩ "b1" "t0" "2024-01-01" "2024-01-31"
        [RawRecord.ok "t1" "d1", RawRecord.ok "t2" "d2"]).1
      "b2" "t1" "2024-02-01" "2024-02-28"
      [RawRecord.ok "t2" "d2x", RawRecord.ok "t3" "d3"]).1 ∧
    ((((create_transaction_batch
      (create_transaction_batch ⟨[], []⟩ "b1" "t0" "2024-01-01" "2024-01-31"
        [RawRecord.ok "t1" "d1", RawRecord.ok "t2" "d2"]).1
      "b2" "t1" "2024-02-01" "2024-02-28"
      [RawRecord.ok "t2" "d2x", RawRecord.ok "t3" "d3"]).1).transactions.map
        (fun t => t.id)).Nodup ∧
    ∀ t1 ∈ ((create_transaction_batch
      (create_transaction_batch ⟨[], []⟩ "b1" "t0" "2024-01-01" "2024-01-31"
        [RawRecord.ok "t1" "d1", RawRecord.ok "t2" "d2"]).1
      "b2" "t1" "2024-02-01" "2024-02-28"
      [RawRecord.ok "t2" "d2x", RawRecord.ok "t3" "d3"]).1).transactions,
      ∀ t2 ∈ ((create_transaction_batch
      (create_transaction_batch ⟨[], []⟩ "b1" "t0" "2024-01-01" "2024-01-31"
        [RawRecord.ok "t1" "d1", RawRecord.ok "t2" "d2"]).1
      "b2" "t1" "2024-02-01" "2024-02-28"
      [RawRecord.ok "t2" "d2x", RawRecord.ok "t3" "d3"]).1).transactions,
        t1.id = t2.id → t1.batch_id = t2.batch_id) :=
  ⟨Reachable.create _ _ _ _ _ _ (Reachable.create _ _ _ _ _ _ Reachable.empty),
   C5_global_uniqueness _
     (Reachable.create _ _ _ _ _ _ (Reachable.create _ _ _ _ _ _ Reachable.empty))⟩

/-- Claim C6: ingesting the same fetch result twice (the first call
succeeding, and each call given a fresh generated batch id) yields on the
second call a new batch with `total_transactions = 0`, a response reporting
0 new transactions, and no new transaction rows. -/
theorem C6_dedup_idempotence (s : Store)
    (batchId1 now1 sd1 ed1 batchId2 now2 sd2 ed2 : String)
    (records : List RawRecord)
    (h1 : batchIdExists s.batches batchId1 = false)
    (h2 : batchIdExists
      ((create_transaction_batch s batchId1 now1 sd1 ed1 records).1).batches
      batchId2 = false) :
    ((create_transaction_batch
        (create_transaction_batch s batchId1 now1 sd1 ed1 records).1
        batchId2 now2 sd2 ed2 records).1).transactions =
      ((create_transaction_batch s batchId1 now1 sd1 ed1 records).1).transactions ∧
    (∃ b : BatchRow,
      ((create_transaction_batch
          (create_transaction_batch s batchId1 now1 sd1 ed1 records).1
          batchId2 now2 sd2 ed2 records).1).batches =
        ((create_transaction_batch s batchId1 now1 sd1 ed1 records).1).batches
          ++ [b] ∧
      b.id = batchId2 ∧ b.total_transactions = 0) ∧
    (create_transaction_batch
        (create_transaction_batch s batchId1 now1 sd1 ed1 records).1
        batchId2 now2 sd2 ed2 records).2 =
      Except.ok ⟨batchId2, "pending", 0,
        createBatchMessage 0
          (ingestRecords batchId2 now2 records
            ((create_transaction_batch s batchId1 now1 sd1 ed1 records).1).transactions).dupCount⟩ := by
  have hs1tx : ((create_transaction_batch s batchId1 now1 sd1 ed1 records).1).transactions
      = (ingestRecords batchId1 now1 records s.transactions).txs := by
    rw [create_fresh_eq s batchId1 now1 sd1 ed1 records h1]
  have hvalid : ∀ tid payload, RawRecord.ok tid payload ∈ records → tid ≠ "" →
      txIdExists ((create_transaction_batch s batchId1 now1 sd1 ed1 records).1).transactions
        tid = true := by
    intro tid payload hm h0
    rw [hs1tx]
    exact ingest_mem_of_valid batchId1 now1 records s.transactions tid payload hm h0
  have hdup := ingest_all_dup batchId2 now2 records
    ((create_transaction_batch s batchId1 now1 sd1 ed1 records).1).transactions hvalid
  rw [create_fresh_eq _ batchId2 now2 sd2 ed2 records h2]
  refine ⟨hdup.1, ⟨⟨batchId2, "pending", now2,
    (ingestRecords batchId2 now2 records
      ((create_transaction_batch s batchId1 now1 sd1 ed1 records).1).transactions).newCount,
    0, sd2, ed2, none⟩, rfl, rfl, hdup.2⟩, ?_⟩
  rw [hdup.2]

/-- Witness for C6 at a concrete input. -/
theorem C6_dedup_idempotence_witness :
    batchIdExists (⟨[], []⟩ : Store).batches "b1" = false ∧
    batchIdExists
      ((create_transaction_batch ⟨[], []⟩ "b1" "t0" "2024-01-01" "2024-01-31"
        [RawRecord.ok "t1" "d1"]).1).batches "b2" = false ∧
    (((create_transaction_batch
        (create_transaction_batch ⟨[], []⟩ "b1" "t0" "2024-01-01" "2024-01-31"
          [RawRecord.ok "t1" "d1"]).1
        "b2" "t1" "2024-01-01" "2024-01-31" [RawRecord.ok "t1" "d1"]).1).transactions =
      ((create_transaction_batch ⟨[], []⟩ "b1" "t0" "2024-01-01" "2024-01-31"
        [RawRecord.ok "t1" "d1"]).1).transactions ∧
    (∃ b : BatchRow,
      ((create_transaction_batch
          (create_transaction_batch ⟨[], []⟩ "b1" "t0" "2024-01-01" "2024-01-31"
            [RawRecord.ok "t1" "d1"]).1
          "b2" "t1" "2024-01-01" "2024-01-31" [RawRecord.ok "t1" "d1"]).1).batches =
        ((create_transaction_batch ⟨[], []⟩ "b1" "t0" "2024-01-01" "2024-01-31"
          [RawRecord.ok "t1" "d1"]).1).batches ++ [b] ∧
      b.id = "b2" ∧ b.total_transactions = 0) ∧
    (create_transaction_batch
        (create_transaction_batch ⟨[], []⟩ "b1" "t0" "2024-01-01" "2024-01-31"
          [RawRecord.ok "t1" "d1"]).1
        "b2" "t1" "2024-01-01" "2024-01-31" [RawRecord.ok "t1" "d1"]).2 =
      Except.ok ⟨"b2", "pending", 0,
        createBatchMessage 0
          (ingestRecords "b2" "t1" [RawRecord.ok "t1" "d1"]
            ((create_transaction_batch ⟨[], []⟩ "b1" "t0" "2024-01-01" "2024-01-31"
              [RawRecord.ok "t1" "d1"]).1).transactions).dupCount⟩) :=
  ⟨rfl, rfl,
   C6_dedup_idempotence ⟨[], []⟩ "b1" "t0" "2024-01-01" "2024-01-31"
     "b2" "t1" "2024-01-01" "2024-01-31" [RawRecord.ok "t1" "d1"] rfl rfl⟩

/-- Claim C7: for every store, batch id and input list of transaction ids —
whether or not the batch exists, the ids belong to it, exist at all, or were
already processed — the response of `mark_transactions_processed` reports
`marked_processed` equal to the length of the input list. -/
theorem C7_marked_count_is_input_length (s : Store) (batchId : String)
    (tids : List String) :
    (mark_transactions_processed s batchId tids).2 =
      Except.ok ⟨batchId, tids.length, markMessage tids.length⟩ := rfl

/-- Witness for C7: ids that do not exist still count toward
`marked_processed`. -/
theorem C7_marked_count_is_input_length_witness :
    (mark_transactions_processed ⟨[], []⟩ "b9" ["x", "y", "z"]).2 =
      Except.ok ⟨"b9", 3, markMessage 3⟩ :=
  C7_marked_count_is_input_length ⟨[], []⟩ "b9" ["x", "y", "z"]

/-- Claim C8: the handler `get_batch_transactions` returns the batch's rows ordered by
`created_at` ascending, restricted to the requested `processed` value when
the filter is given, windowed by `limit`/`offset`; an offset at or past the
end of the matching rows yields an empty page rather than an error; and the
handler is a pure function of the store, so repeated calls with the same
arguments and no intervening writes return identical results. -/
theorem C8_list_transactions_page (s : Store) (batchId : String) (limit offset : Nat)
    (pf : Option Bool) :
    List.Pairwise (fun a b : TxItem => a.created_at ≤ b.created_at)
      (get_batch_transactions s batchId limit offset pf).transactions ∧
    (∀ it ∈ (get_batch_transactions s batchId limit offset pf).transactions,
      ∃ t ∈ s.transactions, t.batch_id = batchId ∧
        (∀ p : Bool, pf = some p → t.processed = p) ∧
        it = TxItem.mk t.id t.transaction_data t.processed t.created_at) ∧
    (get_batch_transactions s batchId limit offset pf).transactions.length ≤ limit ∧
    ((s.transactions.filter (txMatches batchId pf)).length ≤ offset →
      (get_batch_transactions s batchId limit offset pf).transactions = []) ∧
    get_batch_transactions s batchId limit offset pf =
      get_batch_transactions s batchId limit offset pf := by
  have hsorted := List.sorted_mergeSort createdAsc_trans createdAsc_total
    (s.transactions.filter (txMatches batchId pf))
  have hperm := List.mergeSort_perm (s.transactions.filter (txMatches batchId pf))
    createdAsc
  have hsub : ((((s.transactions.filter (txMatches batchId pf)).mergeSort
      createdAsc).drop offset).take limit).Sublist
      ((s.transactions.filter (txMatches batchId pf)).mergeSort createdAsc) :=
    (List.take_sublist _ _).trans (List.drop_sublist _ _)
  refine ⟨?_, ?_, ?_, ?_, rfl⟩
  · rw [get_batch_transactions_transactions, List.pairwise_map]
    exact (List.Pairwise.sublist hsub hsorted).imp fun hab => of_decide_eq_true hab
  · rw [get_batch_transactions_transactions]
    intro it hit
    obtain ⟨t, ht, rfl⟩ := List.mem_map.mp hit
    have ht2 := hsub.subset ht
    have ht3 := hperm.mem_iff.mp ht2
    have ht4 := List.mem_filter.mp ht3
    obtain ⟨hb, hp⟩ := (txMatches_true_iff batchId pf t).mp ht4.2
    exact ⟨t, ht4.1, hb, hp, rfl⟩
  · rw [get_batch_transactions_transactions, List.length_map]
    exact List.length_take_le _ _
  · intro hoff
    rw [get_batch_transactions_transactions]
    have hlen : ((s.transactions.filter (txMatches batchId pf)).mergeSort
        createdAsc).length ≤ offset := by
      rw [hperm.length_eq]
      exact hoff
    rw [List.drop_eq_nil_of_le hlen, List.take_nil, List.map_nil]

/-- Witness for C8 on a concrete two-transaction batch with a processed
filter. -/
theorem C8_list_transactions_page_witness :
    List.Pairwise (fun a b : TxItem => a.created_at ≤ b.created_at)
      (get_batch_transactions
        (create_transaction_batch ⟨[], []⟩ "b1" "t0" "2024-01-01" "2024-01-31"
          [RawRecord.ok "t1" "d1", RawRecord.ok "t2" "d2"]).1
        "b1" 50 0 (some false)).transactions ∧
    (∀ it ∈ (get_batch_transactions
        (create_transaction_batch ⟨[], []⟩ "b1" "t0" "2024-01-01" "2024-01-31"
          [RawRecord.ok "t1" "d1", RawRecord.ok "t2" "d2"]).1
        "b1" 50 0 (some false)).transactions,
      ∃ t ∈ ((create_transaction_batch ⟨[], []⟩ "b1" "t0" "2024-01-01" "2024-01-31"
          [RawRecord.ok "t1" "d1", RawRecord.ok "t2" "d2"]).1).transactions,
        t.batch_id = "b1" ∧
        (∀ p : Bool, (some false : Option Bool) = some p → t.processed = p) ∧
        it = TxItem.mk t.id t.transaction_data t.processed t.created_at) ∧
    (get_batch_transactions
        (create_transaction_batch ⟨[], []⟩ "b1" "t0" "2024-01-01" "2024-01-31"
          [RawRecord.ok "t1" "d1", RawRecord.ok "t2" "d2"]).1
        "b1" 50 0 (some false)).transactions.length ≤ 50 ∧
    ((((create_transaction_batch ⟨[], []⟩ "b1" "t0" "2024-01-01" "2024-01-31"
          [RawRecord.ok "t1" "d1", RawRecord.ok "t2" "d2"]).1).transactions.filter
        (txMatches "b1" (some false))).length ≤ 0 →
      (get_batch_transactions
        (create_transaction_batch ⟨[], []⟩ "b1" "t0" "2024-01-01" "2024-01-31"
          [RawRecord.ok "t1" "d1", RawRecord.ok "t2" "d2"]).1
        "b1" 50 0 (some false)).transactions = []) ∧
    get_batch_transactions
      (create_transaction_batch ⟨[], []⟩ "b1" "t0" "2024-01-01" "2024-01-31"
        [RawRecord.ok "t1" "d1", RawRecord.ok "t2" "d2"]).1
      "b1" 50 0 (some false) =
    get_batch_transactions
      (create_transaction_batch ⟨[], []⟩ "b1" "t0" "2024-01-01" "2024-01-31"
        [RawRecord.ok "t1" "d1", RawRecord.ok "t2" "d2"]).1
      "b1" 50 0 (some false) :=
  C8_list_transactions_page _ "b1" 50 0 (some false)

/-- Claim C9, counterexample to the claim as stated.  The filter guard in
`list_transaction_batches` is Python's `if status:`, which is false for the
empty string, so a present but empty `statusFilter` is ignored: on a
reachable store holding one `pending` batch, filtering by the empty string
returns that batch even though its status is not the empty string — the
result is not restricted to the given filter. -/
theorem C9_counterexample_empty_filter_ignored :
    Reachable (create_transaction_batch ⟨[], []⟩ "b1" "t0" "2024-01-01" "2024-01-31"
      [RawRecord.ok "t1" "d1"]).1 ∧
    (list_transaction_batches
      (create_transaction_batch ⟨[], []⟩ "b1" "t0" "2024-01-01" "2024-01-31"
        [RawRecord.ok "t1" "d1"]).1 (some "") 20).batches.map
      (fun b => b.status) = ["pending"] ∧
    ("pending" : String) ≠ "" := by
  refine ⟨Reachable.create _ _ _ _ _ _ Reachable.empty, ?_, by decide⟩
  have h1 : ((create_transaction_batch ⟨[], []⟩ "b1" "t0" "2024-01-01" "2024-01-31"
      [RawRecord.ok "t1" "d1"]).1).batches =
      [⟨"b1", "pending", "t0", 1, 0, "2024-01-01", "2024-01-31", none⟩] := rfl
  rw [list_transaction_batches_batches, h1]
  simp [filterBatches, List.mergeSort_singleton, mkBatchSummary]

/-- Claim C9 (amended): `list_transaction_batches` returns summaries
ordered by `created_at` descending, restricted to the given `statusFilter`
when it is present and non-empty (an empty-string filter is treated as
absent), capped at `limit` entries, and each summary's
`progress_percentage` equals `processed/total*100`, with 0 when the total
is 0. -/
theorem C9_list_batches_amended (s : Store) (statusFilter : Option String) (limit : Nat) :
    List.Pairwise (fun a b : BatchSummary => b.created_at ≤ a.created_at)
      (list_transaction_batches s statusFilter limit).batches ∧
    (∀ f : String, statusFilter = some f → f ≠ "" →
      ∀ b ∈ (list_transaction_batches s statusFilter limit).batches, b.status = f) ∧
    (list_transaction_batches s statusFilter limit).batches.length ≤ limit ∧
    (∀ b ∈ (list_transaction_batches s statusFilter limit).batches,
      (0 < b.total_transactions ∧
        b.progress_percentage =
          (b.processed_transactions : ℚ) / (b.total_transactions : ℚ) * 100) ∨
      (b.total_transactions = 0 ∧ b.progress_percentage = 0)) := by
  have hsorted := List.sorted_mergeSort createdDesc_trans createdDesc_total
    (filterBatches s.batches statusFilter)
  have hperm := List.mergeSort_perm (filterBatches s.batches statusFilter) createdDesc
  have hsub : (((filterBatches s.batches statusFilter).mergeSort createdDesc).take
      limit).Sublist ((filterBatches s.batches statusFilter).mergeSort createdDesc) :=
    List.take_sublist _ _
  refine ⟨?_, ?_, ?_, ?_⟩
  · rw [list_transaction_batches_batches, List.pairwise_map]
    exact (List.Pairwise.sublist hsub hsorted).imp fun hab => of_decide_eq_true hab
  · intro f hf hne b hb
    rw [list_transaction_batches_batches] at hb
    obtain ⟨b0, hb0, rfl⟩ := List.mem_map.mp hb
    have hb1 := hsub.subset hb0
    have hb2 := hperm.mem_iff.mp hb1
    rw [hf] at hb2
    have h3 := filterBatches_status s.batches f hne b0 hb2
    simpa [mkBatchSummary] using h3
  · rw [list_transaction_batches_batches, List.length_map]
    exact List.length_take_le _ _
  · intro b hb
    rw [list_transaction_batches_batches] at hb
    obtain ⟨b0, hb0, rfl⟩ := List.mem_map.mp hb
    by_cases hpos : 0 < b0.total_transactions
    · left
      refine ⟨hpos, ?_⟩
      simp [mkBatchSummary, progressPercentage, hpos]
    · right
      have h0 : b0.total_transactions = 0 := by omega
      refine ⟨h0, ?_⟩
      simp [mkBatchSummary, progressPercentage, h0]

/-- Witness for the amended C9 theorem on a concrete store with a
`pending` filter. -/
theorem C9_list_batches_amended_witness :
    List.Pairwise (fun a b : BatchSummary => b.created_at ≤ a.created_at)
      (list_transaction_batches
        (create_transaction_batch ⟨[], []⟩ "b1" "t0" "2024-01-01" "2024-01-31"
          [RawRecord.ok "t1" "d1"]).1 (some "pending") 20).batches ∧
    (∀ f : String, (some "pending" : Option String) = some f → f ≠ "" →
      ∀ b ∈ (list_transaction_batches
        (create_transaction_batch ⟨[], []⟩ "b1" "t0" "2024-01-01" "2024-01-31"
          [RawRecord.ok "t1" "d1"]).1 (some "pending") 20).batches, b.status = f) ∧
    (list_transaction_batches
        (create_transaction_batch ⟨[], []⟩ "b1" "t0" "2024-01-01" "2024-01-31"
          [RawRecord.ok "t1" "d1"]).1 (some "pending") 20).batches.length ≤ 20 ∧
    (∀ b ∈ (list_transaction_batches
        (create_transaction_batch ⟨[], []⟩ "b1" "t0" "2024-01-01" "2024-01-31"
          [RawRecord.ok "t1" "d1"]).1 (some "pending") 20).batches,
      (0 < b.total_transactions ∧
        b.progress_percentage =
          (b.processed_transactions : ℚ) / (b.total_transactions : ℚ) * 100) ∨
      (b.total_transactions = 0 ∧ b.progress_percentage = 0)) :=
  C9_list_batches_amended _ (some "pending") 20

/-- A raw record that the ingestion loop of `create_transaction_batch`
skips without persisting: its conversion to a dictionary raises, or its
provider transaction id is missing/empty. -/
def RawRecord.isSkippable : RawRecord → Prop
  | RawRecord.convFail => True
  | RawRecord.ok tid _ => tid = ""

/-- Claim C10: a fetched record that fails conversion or lacks a valid
provider transaction id is skipped without being persisted and without
aborting the ingestion — the whole call (resulting store and response) is
identical to the call on the fetch result with that record removed, so the
batch is still created and every other record is still processed. -/
theorem C10_malformed_record_skipped (s : Store)
    (batchId now startDate endDate : String) (pre post : List RawRecord)
    (bad : RawRecord) (hbad : bad.isSkippable) :
    create_transaction_batch s batchId now startDate endDate (pre ++ bad :: post) =
    create_transaction_batch s batchId now startDate endDate (pre ++ post) := by
  have hbad2 : bad = RawRecord.convFail ∨ ∃ p, bad = RawRecord.ok "" p := by
    cases bad with
    | convFail => exact Or.inl rfl
    | ok tid p =>
      have h0 : tid = "" := hbad
      exact Or.inr ⟨p, by rw [h0]⟩
  have hin : ∀ txs : List TxRow,
      ingestRecords batchId now (pre ++ bad :: post) txs =
      ingestRecords batchId now (pre ++ post) txs :=
    ingest_skip batchId now bad hbad2 pre post
  unfold create_transaction_batch
  rw [hin]

/-- Witness for C10: inserting a conversion-failing record between two
valid records changes nothing. -/
theorem C10_malformed_record_skipped_witness :
    (RawRecord.convFail).isSkippable ∧
    create_transaction_batch ⟨[], []⟩ "b1" "t0" "2024-01-01" "2024-01-31"
        [RawRecord.ok "t1" "d1", RawRecord.convFail, RawRecord.ok "t2" "d2"] =
      create_transaction_batch ⟨[], []⟩ "b1" "t0" "2024-01-01" "2024-01-31"
        [RawRecord.ok "t1" "d1", RawRecord.ok "t2" "d2"] :=
  ⟨trivial,
   C10_malformed_record_skipped ⟨[], []⟩ "b1" "t0" "2024-01-01" "2024-01-31"
     [RawRecord.ok "t1" "d1"] [RawRecord.ok "t2" "d2"] RawRecord.convFail trivial⟩
